import Mathlib

/-!
Verification development for the RAG pipeline backend
(`backend/rag_pipeline.py`).  Python strings are modelled as `List Char`,
python floats arising from the hash embedding as `ℚ` (every value produced
is of the form `n / 255` with `n ≤ 255`, exactly representable, so order
and equality agree with the float semantics), and python exceptions as
`Except` values carrying the exception text `str(e)`.  External
collaborators (ChromaDB, the Gemini API, `hashlib.md5`) are modelled as
oracles supplied through an environment record.
-/

set_option autoImplicit false
set_option maxRecDepth 10000

abbrev Str := List Char

/-- Python `str.strip()` whitespace predicate (ASCII whitespace). -/
def pyIsSpace (c : Char) : Bool :=
  c = ' ' || c = '\t' || c = '\n' || c = '\r' || c = Char.ofNat 11 || c = Char.ofNat 12

/-- Python `str.strip()`: drop leading and trailing whitespace. -/
def pyStrip (l : Str) : Str :=
  ((l.dropWhile pyIsSpace).reverse.dropWhile pyIsSpace).reverse

/-- Accumulator pass for `str.rfind(ch, s, e)`: remember the last index `i`
with `s ≤ i < e` whose character equals `c`. -/
def rfindAux (c : Char) (s e : Nat) : Str → Nat → Option Nat → Option Nat
  | [], _, acc => acc
  | x :: xs, i, acc =>
      rfindAux c s e xs (i + 1) (if x = c ∧ s ≤ i ∧ i < e then some i else acc)

/-- Python `text.rfind(c, s, e)` (`none` models the return value `-1`). -/
def pyRfind (text : Str) (c : Char) (s e : Nat) : Option Nat :=
  rfindAux c s e text 0 none

/-- Constant `self.chunk_size` set in `RAGPipeline.__init__`. -/
def chunkSize : Nat := 1000

/-- Constant `self.chunk_overlap` set in `RAGPipeline.__init__`. -/
def chunkOverlap : Nat := 200

/-- The word-boundary fallback of `chunk_text`: look for the last space in
the window; use it if it lies past the window midpoint, else the raw edge. -/
def wordEnd (text : Str) (start e0 : Nat) : Nat :=
  match pyRfind text ' ' start e0 with
  | some we => if start + chunkSize / 2 < we then we else e0
  | none => e0

/-- One window-boundary computation of `chunk_text`: raw edge
`start + chunk_size`, adjusted to a sentence or word boundary when the
window does not already reach the end of the text. -/
def windowEnd (text : Str) (start : Nat) : Nat :=
  if start + chunkSize < text.length then
    match pyRfind text '.' start (start + chunkSize) with
    | some se =>
      if start + chunkSize / 2 < se then se + 1
      else wordEnd text start (start + chunkSize)
    | none => wordEnd text start (start + chunkSize)
  else start + chunkSize

/-- The `while start < len(text)` loop of `chunk_text`, recorded as the
sequence of `(start, end)` windows.  Fuel-indexed so that the definition is
a structural recursion; `text.length` fuel is always enough (proved in the
termination theorem) because each iteration advances `start` by at least
`chunkSize / 2 - chunkOverlap + 101 > 0` characters. -/
def chunkLoopF (text : Str) : Nat → Nat → List (Nat × Nat)
  | 0, _ => []
  | fuel + 1, start =>
    if start < text.length then
      let e := windowEnd text start
      (start, e) :: chunkLoopF text fuel (e - chunkOverlap)
    else []

/-- All windows produced by the `chunk_text` loop. -/
def chunkRanges (text : Str) : List (Nat × Nat) := chunkLoopF text text.length 0

/-- Python slice `text[s:e]`. -/
def sliceStr (text : Str) (s e : Nat) : Str := (text.drop s).take (e - s)

/-- Model of `RAGPipeline.chunk_text`: single chunk for short text, otherwise each
slice of each window stripped of whitespace, with empty results dropped. -/
def chunk_text (text : Str) : List Str :=
  if text.length ≤ chunkSize then [text]
  else ((chunkRanges text).map (fun p => pyStrip (sliceStr text p.1 p.2))).filter
    (fun c => !c.isEmpty)

/-! ### Hash-based fallback embedding (`_generate_hash_embeddings`) -/

/-- Value of a hexadecimal digit character, as parsed by python
`int(s, 16)` (the md5 hexdigest only ever contains `0-9a-f`). -/
def hexVal (c : Char) : Nat :=
  if 48 ≤ c.toNat ∧ c.toNat ≤ 57 then c.toNat - 48
  else if 97 ≤ c.toNat ∧ c.toNat ≤ 102 then c.toNat - 87
  else if 65 ≤ c.toNat ∧ c.toNat ≤ 70 then c.toNat - 55
  else 0

/-- Python `int(text_hash[i:i+2], 16)` for a two-character slice. -/
def hexPairVal (c1 c2 : Char) : Nat := 16 * hexVal c1 + hexVal c2

/-- The `for i in range(0, min(len(text_hash), 384), 2)` loop of
`_generate_hash_embeddings`: one float per two-character slice of the
digest (a trailing odd character yields a one-character slice). -/
def hashComponents : Str → List ℚ
  | [] => []
  | [c] => [(hexVal c : ℚ) / 255]
  | c1 :: c2 :: rest => (hexPairVal c1 c2 : ℚ) / 255 :: hashComponents rest

/-- The per-text body of `_generate_hash_embeddings`: components from the
digest, padded with `0.0` to 384 dimensions and truncated to 384. -/
def hashEmbedding (digest : Str) : List ℚ :=
  let comps := hashComponents (digest.take 384)
  (comps ++ List.replicate (384 - comps.length) 0).take 384

/-- Model of `RAGPipeline._generate_hash_embeddings`, with `hashlib.md5(...).hexdigest()`
supplied as an oracle `md5`. -/
def generate_hash_embeddings (md5 : Str → Str) (texts : List Str) : List (List ℚ) :=
  texts.map (fun t => hashEmbedding (md5 t))

/-- A digest as actually produced by `hashlib.md5(...).hexdigest()`:
32 lowercase hexadecimal characters. -/
def hexChars : Str := "0123456789abcdef".toList

def ValidDigest (d : Str) : Prop := d.length = 32 ∧ ∀ c ∈ d, c ∈ hexChars

/-! ### Data model: chunks, collections, retrieval results -/

/-- The chunk metadata dict built in `add_document`. -/
structure Metadata where
  content_id : Str
  source : Str
  content_type : Str
  chunk_index : Nat
  total_chunks : Nat
  chunk_length : Nat
deriving DecidableEq

/-- One stored chunk of a ChromaDB collection. -/
structure StoredChunk where
  id : Str
  document : Str
  meta : Metadata
  embedding : List ℚ
deriving DecidableEq

/-- A per-user ChromaDB collection. -/
structure Collection where
  chunks : List StoredChunk
deriving DecidableEq

/-- Model of `collection.count()`. -/
def Collection.count (c : Collection) : Nat := c.chunks.length

/-- One formatted retrieval hit (`chunk_data` in `search_relevant_chunks`):
content, metadata and vector distance. -/
structure Hit where
  content : Str
  meta : Metadata
  distance : ℚ
deriving DecidableEq

/-- One entry of the source list built in `generate_rag_response`. -/
structure SourceRef where
  source : Str
  content_type : Str
  relevance_score : ℚ
deriving DecidableEq

/-! ### String helpers: python `in`, `lower`, substring test -/

/-- Python `needle in hay` substring test. -/
def containsStr (needle : Str) : Str → Bool
  | [] => needle.isEmpty
  | c :: rest => needle.isPrefixOf (c :: rest) || containsStr needle rest

/-- Python `str.lower()` (ASCII). -/
def lowerStr (s : Str) : Str := s.map Char.toLower

def sQuota : Str := "quota".toList
def s429 : Str := "429".toList
def sApiKey : Str := "API key not valid".toList
def s404 : Str := "404".toList
def sTimeout : Str := "timeout".toList

/-- The quota / rate-limit marker test used throughout the pipeline:
`"quota" in str(e).lower() or "429" in str(e)`. -/
def quotaMarker (e : Str) : Bool :=
  containsStr sQuota (lowerStr e) || containsStr s429 e

/-! ### Environment: external collaborators as oracles -/

/-- The outcome of the `n`-th call of `gemini_model.generate_content(p)`
for a prompt `p` (attempt-indexed so that retry policies are statable). -/
abbrev GenOracle := Str → Nat → Except Str Str

/-- The external world as seen by one `RAGPipeline` call for a fixed
`user_id` and query: the collection lookup outcome for the user, the full
distance-ranked hit list the vector index would return (a query with
`n_results = k` returns its first `k` entries), a possible query failure,
the per-text Gemini embedding outcome, the md5 oracle and the generation
oracle. -/
structure Env where
  getCollection : Except Str Collection
  ranking : List Hit
  queryErr : Option Str
  embed : Str → Except Str (List ℚ)
  md5 : Str → Str
  gen : GenOracle

/-! ### Embedding provider (`generate_embeddings`) -/

/-- The per-text loop of the Gemini branch of `generate_embeddings`:
a quota-marker failure substitutes the hash embedding for that item only;
any other failure aborts the batch (to be caught by the outer handler). -/
def embedLoop (env : Env) : List Str → Except Str (List (List ℚ))
  | [] => .ok []
  | t :: ts =>
    match env.embed t with
    | .ok v => (embedLoop env ts).map (fun vs => v :: vs)
    | .error e =>
      if quotaMarker e then (embedLoop env ts).map (fun vs => hashEmbedding (env.md5 t) :: vs)
      else .error e

/-- Model of `RAGPipeline.generate_embeddings` on the Gemini path (the constructor
assigns `genai.embed_content`, which cannot fail, so this path is always
selected); the outer `except` falls back to hash embeddings for the whole
batch. -/
def generate_embeddings (env : Env) (texts : List Str) : List (List ℚ) :=
  match embedLoop env texts with
  | .ok vs => vs
  | .error _ => generate_hash_embeddings env.md5 texts

/-! ### Retriever (`search_relevant_chunks`) -/

/-- Model of `RAGPipeline.search_relevant_chunks`: look up the collection, embed the
query, query the index with `n_results = top_k` and format the hits; any
exception is caught and yields `[]`.  The default `top_k` mirrors the
python signature `top_k: int = 5`. -/
def search_relevant_chunks (env : Env) (query : Str) (top_k : Nat := 5) : List Hit :=
  match env.getCollection with
  | .error _ => []
  | .ok _ =>
    let _queryEmbeddings := generate_embeddings env [query]
    match env.queryErr with
    | some _ => []
    | none => env.ranking.take top_k

/-! ### Generator (`generate_general_response`) and error classification -/

def apos : Char := Char.ofNat 39

def msgAuth : Str :=
  "I".toList ++ [apos] ++
  "m sorry, but there".toList ++ [apos] ++
  "s an issue with the AI service configuration. Please check the API key.".toList

def msgQuota : Str :=
  "I".toList ++ [apos] ++
  "m having trouble processing your request right now. Please try again shortly.".toList

def msg404 : Str :=
  "I".toList ++ [apos] ++
  "m experiencing a temporary service issue. Please try again in a few moments.".toList

def msgTimeout : Str :=
  "The request timed out. Please try again with a shorter query.".toList

/-- The classified message built by the `except` branch of
`generate_general_response` from the exception text. -/
def classifyError (e : Str) : Str :=
  if containsStr sApiKey e then msgAuth
  else if quotaMarker e then msgQuota
  else if containsStr s404 e then msg404
  else if containsStr sTimeout (lowerStr e) then msgTimeout
  else "I encountered an error: ".toList ++ e.take 100 ++ "... Please try again.".toList

/-- Model of `RAGPipeline.generate_general_response`: one `generate_content` call
(attempt 0); on failure the classified message is returned. -/
def generate_general_response (gen : GenOracle) (query : Str) : Str :=
  match gen query 0 with
  | .ok t => t
  | .error e => classifyError e

/-! ### Context assembly and the orchestrator (`generate_rag_response`) -/

/-- Source-list entry for an included chunk: `relevance_score = 1 - distance`. -/
def mkSourceRef (h : Hit) : SourceRef :=
  { source := h.meta.source, content_type := h.meta.content_type,
    relevance_score := 1 - h.distance }

/-- The `max_context_length` literal in `generate_rag_response`. -/
def maxContextLength : Nat := 2000

/-- The context-assembly loop of `generate_rag_response`: walk the ranked
chunks accumulating text length; `break` at the first chunk that would push
the total over `maxContextLength`. -/
def assembleLoop : List Hit → Nat → List Str × List SourceRef
  | [], _ => ([], [])
  | h :: rest, cur =>
    if maxContextLength < cur + h.content.length then ([], [])
    else
      let pr := assembleLoop rest (cur + h.content.length)
      (h.content :: pr.1, mkSourceRef h :: pr.2)

/-- The grounded prompt template of `generate_rag_response`. -/
def groundedPrompt (context query : Str) : Str :=
  ("Based on the following context from the user".toList ++ [apos] ++
   "s documents, answer the query. If the context doesn".toList ++ [apos] ++
   "t contain enough information to answer the query, say so and provide a general response.\n\nContext:\n".toList)
  ++ context
  ++ "\n\nQuery: ".toList ++ query
  ++ "\n\nPlease provide a helpful response based on the context above. If you reference specific information, mention which source it came from.".toList

def nnSep : Str := "\n\n".toList

def quotaNote : Str :=
  "\n\nNote: Document-based responses are temporarily unavailable due to API limits.".toList

/-- The `try` body of `generate_rag_response`.  The collection check and
the retrieval carry their own handlers; the only operation whose exception
reaches the outer handler is the grounded `generate_content` call. -/
def ragBody (env : Env) (query : Str) : Except Str (Str × List SourceRef) :=
  match env.getCollection with
  | .error _ => .ok (generate_general_response env.gen query, [])
  | .ok c =>
    if c.count = 0 then .ok (generate_general_response env.gen query, [])
    else
      let hits := search_relevant_chunks env query
      if hits.isEmpty then .ok (generate_general_response env.gen query, [])
      else
        let pr := assembleLoop hits 0
        if pr.1.isEmpty then .ok (generate_general_response env.gen query, [])
        else
          let context := List.intercalate nnSep pr.1
          match env.gen (groundedPrompt context query) 0 with
          | .ok t => .ok (t, pr.2)
          | .error e => .error e

/-- Model of `RAGPipeline.generate_rag_response`: the `try` body wrapped in the
outer `except`, which falls back to the general response (with a note when
the exception text carries a quota marker). -/
def generate_rag_response (env : Env) (query : Str) : Except Str (Str × List SourceRef) :=
  match ragBody env query with
  | .ok r => .ok r
  | .error e =>
    .ok (generate_general_response env.gen query ++
          (if containsStr sQuota (lowerStr e) then quotaNote else []), [])

/-! ### Deletion (`delete_document`) -/

/-- Model of `RAGPipeline.delete_document` on a collection: fetch the ids of the
chunks whose metadata `content_id` matches, and delete those ids if the
list is non-empty. -/
def delete_document (c : Collection) (contentId : Str) : Collection :=
  let ids := (c.chunks.filter (fun ch => decide (ch.meta.content_id = contentId))).map
    (fun ch => ch.id)
  if ids.isEmpty then c
  else { chunks := c.chunks.filter (fun ch => decide (ch.id ∉ ids)) }

/-! ### Concrete inputs used by witnesses and counterexamples -/

def sNoColl : Str := "Collection not found".toList
def sGeneralAnswer : Str := "General answer".toList
def qHello : Str := "hello".toList
def qQ : Str := "q".toList
def sResp : Str := "resp".toList
def sR : Str := "r".toList
def tA : Str := "a".toList
def e429 : Str := "429 quota exceeded".toList
def sAnswer : Str := "The answer".toList
def s500 : Str := "500".toList
def e404 : Str := "404 model not found".toList
def idA : Str := "A".toList
def idB : Str := "B".toList
def idC : Str := "C".toList

/-- Text of length 1001 (> `chunkSize`) on which `chunk_text` returns a
single chunk: the second window strips to whitespace and is dropped. -/
def exC2 : Str := List.replicate 500 'a' ++ List.replicate 501 ' '

/-- Plain text of length 1001 used as a witness input. -/
def exAllA : Str := List.replicate 1001 'a'

def okMeta : Metadata :=
  { content_id := "cid".toList, source := "doc.txt".toList,
    content_type := "file".toList, chunk_index := 0, total_chunks := 1,
    chunk_length := 5 }

def okChunk : StoredChunk :=
  { id := "cid_chunk_0".toList, document := qHello, meta := okMeta,
    embedding := [] }

/-- Environment for scenario B: the user has no collection. -/
def envB : Env :=
  { getCollection := .error sNoColl
    ranking := []
    queryErr := none
    embed := fun _ => .ok [0]
    md5 := fun _ => []
    gen := fun _ _ => .ok sGeneralAnswer }

/-- Total text length of the included chunks. -/
def sumLen (l : List Str) : Nat := (l.map List.length).sum

/-- Environment whose single hit is longer than the context budget. -/
def bigHit : Hit :=
  { content := List.replicate 2001 'a', meta := okMeta, distance := 0 }

def envBig : Env :=
  { getCollection := .ok { chunks := [okChunk] }
    ranking := [bigHit]
    queryErr := none
    embed := fun _ => .ok [0]
    md5 := fun _ => []
    gen := fun _ _ => .ok sResp }

/-- Concrete collection for the C6 witness: two documents, one of two
chunks and one of a single chunk. -/
def metaOf (cid : Str) (i : Nat) : Metadata :=
  { content_id := cid, source := "s".toList, content_type := "file".toList,
    chunk_index := i, total_chunks := 2, chunk_length := 1 }

def chunkOf (cid : Str) (i : Nat) : StoredChunk :=
  { id := cid ++ "_chunk_".toList ++ (toString i).toList, document := "x".toList,
    meta := metaOf cid i, embedding := [1] }

def collC6 : Collection :=
  { chunks := [chunkOf idA 0, chunkOf idA 1, chunkOf idB 0] }

def digestA : Str := "00000000000000000000000000000000".toList

def digestB : Str := "10000000000000000000000000000000".toList

def md5c : Str → Str := fun _ => digestA

/-- Generation oracle of scenario C: a quota-marker error on the first two
attempts, success on the third. -/
def genC5 : GenOracle := fun _ n =>
  if n ≤ 1 then .error e429 else .ok sAnswer

/-- Oracle agreeing with `genC5` on attempt 0 but failing forever after. -/
def genC5' : GenOracle := fun _ n =>
  if n = 0 then .error e429 else .error s500

def qC5 : Str := "hi".toList

def eBoom : Str := "boom".toList

def genBoom : GenOracle := fun _ _ => .error eBoom

def gen404 : GenOracle := fun _ _ => .error e404

def hit0 : Hit := { content := "c".toList, meta := okMeta, distance := 0 }

/-- Environment whose vector index holds four hits. -/
def env4 : Env :=
  { getCollection := .ok { chunks := [okChunk] }
    ranking := List.replicate 4 hit0
    queryErr := none
    embed := fun _ => .ok [0]
    md5 := fun _ => []
    gen := fun _ _ => .ok sR }

/-! ### Helper lemmas on lists -/

theorem length_filter_not_add {α : Type} (p : α → Bool) (l : List α) :
    (l.filter (fun x => !p x)).length + (l.filter p).length = l.length := by
  induction l with
  | nil => rfl
  | cons a t ih =>
    by_cases h : p a = true <;> simp [List.filter_cons, h, Nat.add_assoc, Nat.add_comm,
      Nat.add_left_comm, ← ih]

/-! ### C4: context assembly -/

theorem assembleLoop_budget (hits : List Hit) :
    ∀ cur, cur ≤ maxContextLength →
      cur + sumLen (assembleLoop hits cur).1 ≤ maxContextLength := by
  induction hits with
  | nil => intro cur h; simpa [assembleLoop, sumLen] using h
  | cons h t ih =>
    intro cur hcur
    by_cases hb : maxContextLength < cur + h.content.length
    · simpa [assembleLoop, hb, sumLen] using hcur
    · have hle : cur + h.content.length ≤ maxContextLength := Nat.le_of_not_lt hb
      have := ih (cur + h.content.length) hle
      simp only [assembleLoop, hb, if_false, sumLen, List.map_cons, List.sum_cons] at *
      omega

theorem assembleLoop_take (hits : List Hit) :
    ∀ cur, ∃ n, (assembleLoop hits cur).1 = (hits.take n).map Hit.content ∧
      (assembleLoop hits cur).2 = (hits.take n).map mkSourceRef := by
  induction hits with
  | nil => intro cur; exact ⟨0, by simp [assembleLoop]⟩
  | cons h t ih =>
    intro cur
    by_cases hb : maxContextLength < cur + h.content.length
    · exact ⟨0, by simp [assembleLoop, hb]⟩
    · obtain ⟨n, h1, h2⟩ := ih (cur + h.content.length)
      exact ⟨n + 1, by simp [assembleLoop, hb, h1, h2]⟩

/-- C4: context assembly includes a greedy prefix of the ranked results:
the included text never exceeds `maxContextLength`; the source list has one
entry per included chunk in the same rank order; an oversized first chunk
yields an empty context; and an empty context makes the orchestrator take
the ungrounded-generation fallback. -/
theorem c4_context_assembly (hits : List Hit) :
    sumLen (assembleLoop hits 0).1 ≤ maxContextLength ∧
    (assembleLoop hits 0).2.length = (assembleLoop hits 0).1.length ∧
    (∃ n, (assembleLoop hits 0).1 = (hits.take n).map Hit.content ∧
          (assembleLoop hits 0).2 = (hits.take n).map mkSourceRef) ∧
    (∀ (h : Hit) (rest : List Hit), maxContextLength < h.content.length →
       assembleLoop (h :: rest) 0 = ([], [])) ∧
    (∀ (env : Env) (q : Str) (c : Collection),
       env.getCollection = .ok c → c.count ≠ 0 →
       (search_relevant_chunks env q).isEmpty = false →
       (assembleLoop (search_relevant_chunks env q) 0).1 = [] →
       generate_rag_response env q = .ok (generate_general_response env.gen q, [])) := by
  refine ⟨by simpa using assembleLoop_budget hits 0 (Nat.zero_le _), ?_, assembleLoop_take hits 0, ?_, ?_⟩
  · obtain ⟨n, h1, h2⟩ := assembleLoop_take hits 0
    simp [h1, h2]
  · intro h rest hbig
    simp [assembleLoop, hbig]
  · intro env q c hc hcount hnonempty hempty
    have hisEmpty : (assembleLoop (search_relevant_chunks env q) 0).1.isEmpty = true := by
      simp [hempty]
    simp [generate_rag_response, ragBody, hc, hcount, hnonempty, hisEmpty]

/-- Witness for C4 at a concrete environment: the single retrieved chunk of
length 2001 exceeds the budget, so the orchestrator answers with the
general response and an empty source list. -/
theorem c4_context_assembly_witness :
    assembleLoop (bigHit :: []) 0 = ([], []) ∧
    generate_rag_response envBig qQ =
      .ok (generate_general_response envBig.gen qQ, []) := by
  have hlen : bigHit.content.length = 2001 := by simp [bigHit]
  have hbig : maxContextLength < bigHit.content.length := by
    rw [hlen]; norm_num [maxContextLength]
  have h1 : assembleLoop (bigHit :: []) 0 = ([], []) :=
    (c4_context_assembly []).2.2.2.1 bigHit [] hbig
  have hs : search_relevant_chunks envBig qQ = [bigHit] := rfl
  refine ⟨h1, ?_⟩
  exact (c4_context_assembly (search_relevant_chunks envBig qQ)).2.2.2.2
    envBig qQ { chunks := [okChunk] } rfl (by decide) (by rw [hs]; rfl)
    (by rw [hs, h1])

/-! ### C6: delete_document -/

theorem delete_document_filter (c : Collection) (cid : Str)
    (hnd : (c.chunks.map StoredChunk.id).Nodup) :
    (delete_document c cid).chunks =
      c.chunks.filter (fun ch => decide (¬ ch.meta.content_id = cid)) := by
  unfold delete_document
  by_cases hids :
      ((c.chunks.filter (fun ch => decide (ch.meta.content_id = cid))).map
        (fun ch => ch.id)).isEmpty = true
  · simp only [hids, if_true]
    have hnone : ∀ ch ∈ c.chunks, ¬ ch.meta.content_id = cid := by
      intro ch hm hcid
      have : ch.id ∈ (c.chunks.filter (fun ch => decide (ch.meta.content_id = cid))).map
          (fun ch => ch.id) :=
        List.mem_map_of_mem _ (List.mem_filter.2 ⟨hm, by simpa using hcid⟩)
      rw [List.isEmpty_iff] at hids
      simp [hids] at this
    exact (List.filter_eq_self.2 (by intro ch hm; simpa using hnone ch hm)).symm
  · simp only [hids, if_false]
    apply List.filter_congr
    intro ch hm
    simp only [decide_eq_decide]
    constructor
    · intro hnotin hcid
      exact hnotin (List.mem_map_of_mem _ (List.mem_filter.2 ⟨hm, by simpa using hcid⟩))
    · intro hncid hin
      obtain ⟨ch', hch', hid⟩ := List.mem_map.1 hin
      have hch'mem : ch' ∈ c.chunks := (List.mem_filter.1 hch').1
      have : ch' = ch := List.inj_on_of_nodup_map hnd hch'mem hm hid
      exact hncid (by simpa [this] using (List.mem_filter.1 hch').2)

/-- C6: `delete_document` removes exactly the chunks whose metadata
`content_id` matches the given id (all of them, and no others, preserving
the order of the rest); the count drops by exactly the size of the deleted group; and it is a no-op when no chunk matches. -/
theorem c6_delete_document (c : Collection) (cid : Str)
    (hnd : (c.chunks.map StoredChunk.id).Nodup) :
    (delete_document c cid).chunks =
      c.chunks.filter (fun ch => decide (¬ ch.meta.content_id = cid)) ∧
    (delete_document c cid).count =
      c.count - (c.chunks.filter (fun ch => decide (ch.meta.content_id = cid))).length ∧
    (c.chunks.filter (fun ch => decide (ch.meta.content_id = cid)) = [] →
      delete_document c cid = c) := by
  refine ⟨delete_document_filter c cid hnd, ?_, ?_⟩
  · have hf := delete_document_filter c cid hnd
    have hlen := length_filter_not_add (fun ch => decide (ch.meta.content_id = cid)) c.chunks
    have : (delete_document c cid).chunks.length =
        (c.chunks.filter (fun ch => !decide (ch.meta.content_id = cid))).length := by
      rw [hf]; congr 1; apply List.filter_congr; intro ch _; simp
    simp only [Collection.count, this]
    omega
  · intro hnone
    unfold delete_document
    simp [hnone]

/-! ### C1: the orchestrator never raises -/

/-- C1: `generate_rag_response` always returns an `(responseText, sourceList)`
pair — every internal failure is caught at the orchestrator boundary — and
when the user has no collection, or an empty one, it returns the general
(ungrounded) response with an empty source list. -/
theorem c1_orchestrator_never_raises (env : Env) (q : Str) :
    (∃ out, generate_rag_response env q = .ok out) ∧
    ((∃ e, env.getCollection = .error e) ∨
      (∃ c, env.getCollection = .ok c ∧ c.count = 0) →
      generate_rag_response env q = .ok (generate_general_response env.gen q, [])) := by
  constructor
  · unfold generate_rag_response
    cases ragBody env q with
    | ok r => exact ⟨r, rfl⟩
    | error e => exact ⟨_, rfl⟩
  · rintro (⟨e, he⟩ | ⟨c, hc, hcount⟩)
    · simp [generate_rag_response, ragBody, he]
    · simp [generate_rag_response, ragBody, hc, hcount]

/-- Witness for C1: scenario B — a query for a user with no collection
returns the general response and an empty source list. -/
theorem c1_orchestrator_never_raises_witness :
    generate_rag_response envB qHello =
      .ok (generate_general_response envB.gen qHello, []) :=
  (c1_orchestrator_never_raises envB qHello).2 (Or.inl ⟨_, rfl⟩)

/-! ### C3 / C10: hash-based fallback embedding -/

theorem hexVal_le (c : Char) : hexVal c ≤ 15 := by
  unfold hexVal
  split_ifs <;> omega

theorem hexPairVal_le (c1 c2 : Char) : hexPairVal c1 c2 ≤ 255 := by
  have h1 := hexVal_le c1
  have h2 := hexVal_le c2
  unfold hexPairVal
  omega

theorem hashComponents_length : ∀ d : Str, (hashComponents d).length = (d.length + 1) / 2
  | [] => rfl
  | [_] => by simp [hashComponents]
  | _ :: _ :: rest => by
    simp only [hashComponents, List.length_cons, hashComponents_length rest]
    omega

theorem hashComponents_mem :
    ∀ d : Str, ∀ x ∈ hashComponents d, ∃ n : Nat, n ≤ 255 ∧ x = (n : ℚ) / 255
  | [], x, hx => by simp [hashComponents] at hx
  | [c], x, hx => by
    simp only [hashComponents, List.mem_singleton] at hx
    exact ⟨hexVal c, le_trans (hexVal_le c) (by norm_num), hx⟩
  | c1 :: c2 :: rest, x, hx => by
    simp only [hashComponents, List.mem_cons] at hx
    rcases hx with h | h
    · exact ⟨hexPairVal c1 c2, hexPairVal_le c1 c2, h⟩
    · exact hashComponents_mem rest x h

theorem div255_inj (a b : Nat) (h : (a : ℚ) / 255 = (b : ℚ) / 255) : a = b := by
  have h' : (a : ℚ) = b := by
    field_simp at h
    exact_mod_cast h
  exact_mod_cast h'

theorem hexVal_inj_on :
    ∀ c1 ∈ hexChars, ∀ c2 ∈ hexChars, hexVal c1 = hexVal c2 → c1 = c2 := by decide

theorem hashComponents_inj :
    ∀ d1 d2 : Str, (∀ c ∈ d1, c ∈ hexChars) → (∀ c ∈ d2, c ∈ hexChars) →
      d1.length = d2.length → hashComponents d1 = hashComponents d2 → d1 = d2
  | [], [], _, _, _, _ => rfl
  | [], _ :: _, _, _, hl, _ => by simp at hl
  | _ :: _, [], _, _, hl, _ => by simp at hl
  | [_], _ :: _ :: _, _, _, hl, _ => by simp at hl
  | _ :: _ :: _, [_], _, _, hl, _ => by simp at hl
  | [c], [c'], h1, h2, _, he => by
    simp only [hashComponents, List.cons.injEq, and_true] at he
    have := div255_inj _ _ he
    rw [hexVal_inj_on c (h1 c (by simp)) c' (h2 c' (by simp)) this]
  | c1 :: c2 :: r, e1 :: e2 :: r', h1, h2, hl, he => by
    simp only [hashComponents, List.cons.injEq] at he
    have hp : hexPairVal c1 c2 = hexPairVal e1 e2 := div255_inj _ _ he.1
    have b1 := hexVal_le c1
    have b2 := hexVal_le c2
    have b3 := hexVal_le e1
    have b4 := hexVal_le e2
    have hv1 : hexVal c1 = hexVal e1 := by unfold hexPairVal at hp; omega
    have hv2 : hexVal c2 = hexVal e2 := by unfold hexPairVal at hp; omega
    have hc1 : c1 = e1 :=
      hexVal_inj_on c1 (h1 c1 (by simp)) e1 (h2 e1 (by simp)) hv1
    have hc2 : c2 = e2 :=
      hexVal_inj_on c2 (h1 c2 (by simp)) e2 (h2 e2 (by simp)) hv2
    have hr : r = r' := by
      refine hashComponents_inj r r' ?_ ?_ ?_ he.2
      · intro c hc; exact h1 c (by simp [hc])
      · intro c hc; exact h2 c (by simp [hc])
      · simpa using hl
    rw [hc1, hc2, hr]

theorem hashEmbedding_length (d : Str) : (hashEmbedding d).length = 384 := by
  have hCL : (hashComponents (d.take 384)).length ≤ 384 := by
    rw [hashComponents_length]
    have := List.length_take_le 384 d
    omega
  simp only [hashEmbedding, List.length_take, List.length_append, List.length_replicate]
  omega

theorem hashEmbedding_of_len32 (d : Str) (h : d.length = 32) :
    hashEmbedding d = hashComponents d ++ List.replicate 368 (0 : ℚ) := by
  have ht : d.take 384 = d := List.take_of_length_le (by omega)
  have hc : (hashComponents d).length = 16 := by rw [hashComponents_length, h]
  simp only [hashEmbedding, ht, hc]
  rw [show (384 : ℕ) - 16 = 368 from by norm_num]
  apply List.take_of_length_le
  rw [List.length_append, hc, List.length_replicate]

theorem hashEmbedding_mem (d : Str) : ∀ x ∈ hashEmbedding d, 0 ≤ x ∧ x ≤ 1 := by
  intro x hx
  have hx' : x ∈ hashComponents (d.take 384) ++
      List.replicate (384 - (hashComponents (d.take 384)).length) (0 : ℚ) := by
    simpa [hashEmbedding] using List.mem_of_mem_take hx
  rcases List.mem_append.1 hx' with h | h
  · obtain ⟨n, hn, rfl⟩ := hashComponents_mem _ x h
    constructor
    · positivity
    · rw [div_le_one (by norm_num)]
      exact_mod_cast hn
  · rw [List.eq_of_mem_replicate h]
    norm_num

/-- C3: the hash-based fallback embedding is a pure deterministic function:
one vector per input text in input order, each of exactly 384 components in
`[0, 1]`; identical text yields identical vectors; and distinct (valid md5)
digests yield distinct vectors, so texts collide only when md5 collides. -/
theorem c3_hash_embedding (md5 : Str → Str) (texts : List Str) :
    (generate_hash_embeddings md5 texts).length = texts.length ∧
    (∀ i : Nat, (generate_hash_embeddings md5 texts)[i]? =
      (texts[i]?).map (fun t => hashEmbedding (md5 t))) ∧
    (∀ v ∈ generate_hash_embeddings md5 texts,
      v.length = 384 ∧ ∀ x ∈ v, 0 ≤ x ∧ x ≤ 1) ∧
    (∀ t1 t2 : Str, t1 = t2 → hashEmbedding (md5 t1) = hashEmbedding (md5 t2)) ∧
    (∀ d1 d2 : Str, ValidDigest d1 → ValidDigest d2 → d1 ≠ d2 →
      hashEmbedding d1 ≠ hashEmbedding d2) := by
  refine ⟨by simp [generate_hash_embeddings], ?_, ?_, fun t1 t2 h => by rw [h], ?_⟩
  · intro i
    simp [generate_hash_embeddings]
  · intro v hv
    obtain ⟨t, _, rfl⟩ := List.mem_map.1 hv
    exact ⟨hashEmbedding_length _, hashEmbedding_mem _⟩
  · intro d1 d2 hv1 hv2 hne he
    apply hne
    rw [hashEmbedding_of_len32 d1 hv1.1, hashEmbedding_of_len32 d2 hv2.1] at he
    exact hashComponents_inj d1 d2 hv1.2 hv2.2 (by rw [hv1.1, hv2.1])
      (List.append_cancel_right he)

/-- Witness for C3 at concrete inputs: determinism at a fixed text and
distinctness of the vectors of two concrete digests differing in one
character. -/
theorem c3_hash_embedding_witness :
    hashEmbedding (md5c tA) = hashEmbedding (md5c tA) ∧
    hashEmbedding digestA ≠ hashEmbedding digestB := by
  refine ⟨(c3_hash_embedding md5c [tA]).2.2.2.1 tA tA rfl, ?_⟩
  exact (c3_hash_embedding md5c [tA]).2.2.2.2 digestA digestB
    ⟨by decide, by decide⟩ ⟨by decide, by decide⟩ (by decide)

/-- C10: for a 32-character md5 hex digest, the hash-based embedding has
384 components of which only the first 16 are derived from the digest;
components 16 through 383 are all exactly 0. -/
theorem c10_hash_embedding_zero_tail (d : Str) (h : d.length = 32) :
    (hashEmbedding d).length = 384 ∧
    (hashComponents d).length = 16 ∧
    (hashEmbedding d).drop 16 = List.replicate 368 (0 : ℚ) := by
  have hc : (hashComponents d).length = 16 := by rw [hashComponents_length, h]
  refine ⟨hashEmbedding_length d, hc, ?_⟩
  rw [hashEmbedding_of_len32 d h, ← hc, List.drop_left]

/-- Witness for C10 at a concrete digest. -/
theorem c10_hash_embedding_zero_tail_witness :
    (hashEmbedding digestA).length = 384 ∧
    (hashComponents digestA).length = 16 ∧
    (hashEmbedding digestA).drop 16 = List.replicate 368 (0 : ℚ) :=
  c10_hash_embedding_zero_tail digestA (by decide)

/-! ### C5: no retry in the plain generation call -/

/-- C5 counterexample: with a generation oracle that raises a quota-marker
error twice and would succeed on the third attempt, `generate_general_response`
returns the classified quota message from the first attempt — the successful
third attempt is never made and the final response is not the general
answer. -/
theorem c5_counterexample :
    genC5 qC5 0 = .error e429 ∧
    genC5 qC5 1 = .error e429 ∧
    genC5 qC5 2 = .ok sAnswer ∧
    generate_general_response genC5 qC5 = msgQuota ∧
    generate_general_response genC5 qC5 ≠ sAnswer := by
  refine ⟨rfl, rfl, rfl, by decide, by decide⟩

/-- C5 amended: `generate_general_response` makes exactly one generation
attempt (its result depends only on attempt 0, so at most 3 attempts holds
trivially), and a quota-marker failure on that attempt immediately yields
the classified quota message — there is no retry. -/
theorem c5_single_attempt_no_retry (g g' : GenOracle) (q e : Str) :
    (g q 0 = g' q 0 → generate_general_response g q = generate_general_response g' q) ∧
    (g q 0 = .error e → containsStr sApiKey e = false →
      quotaMarker e = true → generate_general_response g q = msgQuota) := by
  constructor
  · intro h
    unfold generate_general_response
    rw [h]
  · intro he hn hq
    unfold generate_general_response
    rw [he]
    unfold classifyError
    simp [hn, hq]

/-- Witness for C5 (amended) at concrete oracles: the response only depends
on the first attempt, and a first-attempt quota error yields the quota
message. -/
theorem c5_single_attempt_no_retry_witness :
    generate_general_response genC5 qC5 = generate_general_response genC5' qC5 ∧
    generate_general_response genC5 qC5 = msgQuota := by
  exact ⟨(c5_single_attempt_no_retry genC5 genC5' qC5 []).1 rfl,
    (c5_single_attempt_no_retry genC5 genC5' qC5 e429).2
      rfl (by decide) (by decide)⟩

/-! ### C8: error-class-specific messages -/

/-- C8 counterexample: for an error matching none of the known markers, the
returned message embeds the raw internal error text (`str(e)[:100]`), so
the message does contain the raw error text. -/
theorem c8_counterexample :
    generate_general_response genBoom qC5 =
      "I encountered an error: ".toList ++ eBoom ++ "... Please try again.".toList ∧
    containsStr eBoom (generate_general_response genBoom qC5) = true := by
  refine ⟨by decide, by decide⟩

/-- C8 amended: auth, quota, 404 and timeout errors yield fixed canned
messages with no raw error text, but an error matching no marker yields a
message embedding the first 100 characters of the raw error text. -/
theorem c8_error_classification (g : GenOracle) (q e : Str) (hg : g q 0 = .error e) :
    (containsStr sApiKey e = true →
      generate_general_response g q = msgAuth) ∧
    (containsStr sApiKey e = false → quotaMarker e = true →
      generate_general_response g q = msgQuota) ∧
    (containsStr sApiKey e = false → quotaMarker e = false →
      containsStr s404 e = true → generate_general_response g q = msg404) ∧
    (containsStr sApiKey e = false → quotaMarker e = false →
      containsStr s404 e = false →
      containsStr sTimeout (lowerStr e) = true →
      generate_general_response g q = msgTimeout) ∧
    (containsStr sApiKey e = false → quotaMarker e = false →
      containsStr s404 e = false →
      containsStr sTimeout (lowerStr e) = false →
      generate_general_response g q =
        "I encountered an error: ".toList ++ e.take 100 ++ "... Please try again.".toList) := by
  unfold generate_general_response
  rw [hg]
  unfold classifyError
  refine ⟨fun h1 => by simp [h1], fun h1 h2 => by simp [h1, h2],
    fun h1 h2 h3 => by simp [h1, h2, h3], fun h1 h2 h3 h4 => by simp [h1, h2, h3, h4],
    fun h1 h2 h3 h4 => by simp [h1, h2, h3, h4]⟩

/-- Witness for C8 (amended) at a concrete oracle raising a 404 error. -/
theorem c8_error_classification_witness :
    generate_general_response gen404 qC5 = msg404 :=
  (c8_error_classification gen404 qC5 e404 rfl).2.2.1
    (by decide) (by decide) (by decide)

/-! ### C9: retriever contract -/

/-- C9 counterexample: called without an explicit `k`, the retriever
returns 4 results — more than the 3 the claim allows — because the python
default is `top_k = 5`. -/
theorem c9_counterexample :
    (search_relevant_chunks env4 qC5).length = 4 ∧
    ¬ (search_relevant_chunks env4 qC5).length ≤ 3 := by
  refine ⟨by decide, by decide⟩

/-- C9 amended: the retriever default is `top_k = 5`: without an explicit
`k` it queries the index for at most 5 nearest neighbours and returns at
most 5 hits (the ranked prefix of the index), each carrying content, metadata
and distance; the orchestrator then maps each included hit to a source
entry with `relevance_score = 1 - distance`. -/
theorem c9_retriever_default_five (env : Env) (q : Str) :
    (search_relevant_chunks env q).length ≤ 5 ∧
    (∀ c, env.getCollection = .ok c → env.queryErr = none →
      search_relevant_chunks env q = env.ranking.take 5) ∧
    (∀ h : Hit, (mkSourceRef h).relevance_score = 1 - h.distance) := by
  refine ⟨?_, ?_, fun _ => rfl⟩
  · unfold search_relevant_chunks
    match henv : env.getCollection with
    | .error _ => simp
    | .ok c =>
      match hq : env.queryErr with
      | some _ => simp
      | none => simp [List.length_take_le]
  · intro c hc hq
    simp [search_relevant_chunks, hc, hq]

/-- Witness for C9 (amended) at the four-hit environment. -/
theorem c9_retriever_default_five_witness :
    search_relevant_chunks env4 qC5 = env4.ranking.take 5 ∧
    (mkSourceRef hit0).relevance_score = 1 - hit0.distance :=
  ⟨(c9_retriever_default_five env4 qC5).2.1 { chunks := [okChunk] } rfl rfl,
   (c9_retriever_default_five env4 qC5).2.2 hit0⟩

/-- Witness for C6: deleting document `A` from a three-chunk collection
keeps exactly the chunk of document `B` and drops the count from 3 to 1, and
deleting an absent id is a no-op. -/
theorem c6_delete_document_witness :
    (delete_document collC6 idA).chunks = [chunkOf idB 0] ∧
    (delete_document collC6 idA).count = 3 - 2 ∧
    delete_document collC6 idC = collC6 := by
  have h := c6_delete_document collC6 idA (by decide)
  have h' := c6_delete_document collC6 idC (by decide)
  refine ⟨?_, ?_, h'.2.2 (by decide)⟩
  · rw [h.1]; decide
  · rw [h.2.1]; decide


/-! ### C2 / C7: chunker bounds, coverage and termination -/

theorem rfindAux_bounds (c : Char) (s e : Nat) :
    ∀ (l : Str) (i0 : Nat) (acc : Option Nat),
      (∀ j, acc = some j → s ≤ j ∧ j < e) →
      ∀ i, rfindAux c s e l i0 acc = some i → s ≤ i ∧ i < e
  | [], _, _, hacc, i, h => hacc i h
  | x :: xs, i0, acc, hacc, i, h => by
    refine rfindAux_bounds c s e xs (i0 + 1) _ ?_ i h
    intro j hj
    by_cases hcnd : x = c ∧ s ≤ i0 ∧ i0 < e
    · rw [if_pos hcnd] at hj
      cases hj
      exact ⟨hcnd.2.1, hcnd.2.2⟩
    · rw [if_neg hcnd] at hj
      exact hacc j hj

theorem pyRfind_bounds (text : Str) (c : Char) (s e i : Nat)
    (h : pyRfind text c s e = some i) : s ≤ i ∧ i < e :=
  rfindAux_bounds c s e text 0 none (by intro j hj; cases hj) i h

theorem wordEnd_bounds (text : Str) (start : Nat) :
    start + 501 ≤ wordEnd text start (start + chunkSize) ∧
    wordEnd text start (start + chunkSize) ≤ start + chunkSize := by
  have hc2 : chunkSize / 2 = 500 := rfl
  have hcs : chunkSize = 1000 := rfl
  unfold wordEnd
  split
  · rename_i we hwe
    have hb := pyRfind_bounds text ' ' start (start + chunkSize) we hwe
    split_ifs with hg <;> omega
  · omega

theorem windowEnd_bounds (text : Str) (start : Nat) :
    start + 501 ≤ windowEnd text start ∧ windowEnd text start ≤ start + chunkSize := by
  have hc2 : chunkSize / 2 = 500 := rfl
  have hcs : chunkSize = 1000 := rfl
  have hw := wordEnd_bounds text start
  unfold windowEnd
  split_ifs with h0
  · split
    · rename_i se hse
      have hb := pyRfind_bounds text '.' start (start + chunkSize) se hse
      split_ifs with hg <;> omega
    · omega
  · omega

theorem chunkLoopF_of_ge (text : Str) (fuel start : Nat) (h : text.length ≤ start) :
    chunkLoopF text fuel start = [] := by
  cases fuel with
  | zero => rfl
  | succ f => simp [chunkLoopF, Nat.not_lt.2 h]

theorem chunkLoopF_fuel (text : Str) :
    ∀ (fuel fuel' start : Nat), text.length - start ≤ fuel →
      text.length - start ≤ fuel' →
      chunkLoopF text fuel start = chunkLoopF text fuel' start := by
  intro fuel
  induction fuel with
  | zero =>
    intro fuel' start h h'
    rw [chunkLoopF_of_ge text 0 start (by omega), chunkLoopF_of_ge text fuel' start (by omega)]
  | succ f ih =>
    intro fuel' start h h'
    by_cases hs : start < text.length
    · have hco : chunkOverlap = 200 := rfl
      have hw := windowEnd_bounds text start
      cases fuel' with
      | zero => omega
      | succ f' =>
        simp only [chunkLoopF, if_pos hs]
        congr 1
        exact ih f' (windowEnd text start - chunkOverlap) (by omega) (by omega)
    · rw [chunkLoopF_of_ge text _ start (by omega), chunkLoopF_of_ge text _ start (by omega)]

theorem chunkLoopF_cover (text : Str) :
    ∀ (fuel start i : Nat), text.length - start ≤ fuel → start ≤ i →
      i < text.length → ∃ p ∈ chunkLoopF text fuel start, p.1 ≤ i ∧ i < p.2 := by
  intro fuel
  induction fuel with
  | zero =>
    intro start i h hs hi
    exfalso
    omega
  | succ f ih =>
    intro start i h hs hi
    have hlt : start < text.length := lt_of_le_of_lt hs hi
    have hco : chunkOverlap = 200 := rfl
    have hw := windowEnd_bounds text start
    simp only [chunkLoopF, if_pos hlt]
    by_cases hie : i < windowEnd text start
    · exact ⟨(start, windowEnd text start), List.mem_cons_self _ _, hs, hie⟩
    · obtain ⟨p, hp, hp1, hp2⟩ :=
        ih (windowEnd text start - chunkOverlap) i (by omega) (by omega) hi
      exact ⟨p, List.mem_cons_of_mem _ hp, hp1, hp2⟩

theorem chunkLoopF_width (text : Str) :
    ∀ (fuel start : Nat), ∀ p ∈ chunkLoopF text fuel start, p.2 ≤ p.1 + chunkSize := by
  intro fuel
  induction fuel with
  | zero => intro start p hp; cases hp
  | succ f ih =>
    intro start p hp
    by_cases hs : start < text.length
    · simp only [chunkLoopF, if_pos hs] at hp
      cases hp with
      | head => exact (windowEnd_bounds text start).2
      | tail _ hp => exact ih _ p hp
    · rw [chunkLoopF_of_ge text _ start (by omega)] at hp
      cases hp

theorem length_dropWhile_le (p : Char → Bool) (l : Str) :
    (l.dropWhile p).length ≤ l.length := by
  induction l with
  | nil => simp
  | cons a t ih =>
    by_cases h : p a
    · simp only [List.dropWhile_cons, h, if_true, List.length_cons]
      omega
    · simp [List.dropWhile_cons, h]

theorem pyStrip_length_le (l : Str) : (pyStrip l).length ≤ l.length := by
  unfold pyStrip
  calc ((l.dropWhile pyIsSpace).reverse.dropWhile pyIsSpace).reverse.length
      = ((l.dropWhile pyIsSpace).reverse.dropWhile pyIsSpace).length := by
        rw [List.length_reverse]
    _ ≤ (l.dropWhile pyIsSpace).reverse.length := length_dropWhile_le _ _
    _ = (l.dropWhile pyIsSpace).length := by rw [List.length_reverse]
    _ ≤ l.length := length_dropWhile_le _ _

theorem sliceStr_length_le (text : Str) (s e : Nat) :
    (sliceStr text s e).length ≤ e - s := by
  simp only [sliceStr, List.length_take]
  exact min_le_left _ _

/-- C2 (amended): for text longer than `chunkSize`, every returned chunk is
non-empty of length at most `chunkSize` (hence at most `chunkSize` plus any
overlap margin), and the sliding windows the chunks are cut from cover the
whole input with no character range skipped; the returned list, however,
can have fewer than 2 chunks, because a window whose slice strips to
whitespace is dropped. -/
theorem c2_chunk_bounds_and_coverage (text : Str) (h : chunkSize < text.length) :
    (∀ c ∈ chunk_text text, c ≠ [] ∧ c.length ≤ chunkSize) ∧
    (∀ p ∈ chunkRanges text, p.2 ≤ p.1 + chunkSize) ∧
    (∀ i < text.length, ∃ p ∈ chunkRanges text, p.1 ≤ i ∧ i < p.2) := by
  refine ⟨?_, ?_, ?_⟩
  · intro c hc
    unfold chunk_text at hc
    rw [if_neg (by omega)] at hc
    obtain ⟨hc1, hc2⟩ := List.mem_filter.1 hc
    obtain ⟨p, hp, rfl⟩ := List.mem_map.1 hc1
    constructor
    · intro hnil
      rw [hnil] at hc2
      simp at hc2
    · have hwidth := chunkLoopF_width text text.length 0 p hp
      calc (pyStrip (sliceStr text p.1 p.2)).length
          ≤ (sliceStr text p.1 p.2).length := pyStrip_length_le _
        _ ≤ p.2 - p.1 := sliceStr_length_le text p.1 p.2
        _ ≤ chunkSize := by omega
  · exact chunkLoopF_width text text.length 0
  · intro i hi
    exact chunkLoopF_cover text text.length 0 i (by omega) (Nat.zero_le i) hi

/-- Witness for C2 (amended) at a concrete 1001-character text. -/
theorem c2_chunk_bounds_and_coverage_witness :
    (∀ c ∈ chunk_text exAllA, c ≠ [] ∧ c.length ≤ chunkSize) ∧
    (∀ i < exAllA.length, ∃ p ∈ chunkRanges exAllA, p.1 ≤ i ∧ i < p.2) := by
  have hlen : chunkSize < exAllA.length := by
    simp [exAllA, chunkSize]
  exact ⟨(c2_chunk_bounds_and_coverage exAllA hlen).1,
    (c2_chunk_bounds_and_coverage exAllA hlen).2.2⟩

/-- C2 counterexample: a 1001-character text (500 letters followed by 501
spaces) is longer than `chunkSize` yet `chunk_text` returns a single chunk,
because the second window strips to whitespace and is dropped — refuting
"at least 2 non-empty chunks". -/
theorem c2_counterexample :
    chunkSize < exC2.length ∧ (chunk_text exC2).length = 1 := by
  exact ⟨by decide, by decide⟩

/-- C7: the chunking loop always terminates: the window end of each iteration is
at least 501 characters past the window start, so after subtracting the
200-character overlap the loop advances by at least 301 characters per
iteration, and `text.length` iterations of fuel are always enough — the
loop value is stable under any sufficient fuel. -/
theorem c7_chunk_loop_terminates (text : Str) (start fuel fuel' : Nat) :
    start + 501 ≤ windowEnd text start ∧
    chunkOverlap < windowEnd text start - start ∧
    (text.length - start ≤ fuel → text.length - start ≤ fuel' →
      chunkLoopF text fuel start = chunkLoopF text fuel' start) := by
  have hw := windowEnd_bounds text start
  have hco : chunkOverlap = 200 := rfl
  exact ⟨hw.1, by omega, fun h1 h2 => chunkLoopF_fuel text fuel fuel' start h1 h2⟩

/-- Witness for C7 at a concrete one-character text and fuels 1 and 5. -/
theorem c7_chunk_loop_terminates_witness :
    0 + 501 ≤ windowEnd ['a'] 0 ∧ chunkLoopF ['a'] 1 0 = chunkLoopF ['a'] 5 0 :=
  ⟨(c7_chunk_loop_terminates ['a'] 0 1 5).1,
   (c7_chunk_loop_terminates ['a'] 0 1 5).2.2 (by decide) (by decide)⟩
